import Mathlib

/-!
# Verification of the cat-normalize token-analytics and orchestration logic

Shallow embedding of the data-processing logic of the `ai-scm/cat-normalize`
repository:

* the legacy (v1) token-extraction heuristic `extract_tokens_from_messagemap_OLD`
  (src/lambda/tokens-process/README.md, lines 151-174);
* the enhanced (v2) heuristic `extract_tokens_from_messagemap_v2` /
  `process_content_item` (same README, lines 216-256);
* the consolidation step `consolidar_datos` (same README, lines 260-272 and 627);
* the price computation (same README, lines 644-646);
* the S3-event trigger rule of `OrchestratorConstruct`
  (lib/constructs/orchestrator-construct.ts).

Python values are modelled by the inductive type `PyVal`; fallible Python code
(attribute errors, `len` on unsized values) is modelled with `Option`, where
`none` stands for a raised exception.
-/

/-- A Python value, as far as the token-analytics lambdas inspect them:
strings, integers, booleans, `None`, lists and string-keyed dicts. -/
inductive PyVal where
  | str (s : String)
  | int (n : Int)
  | bool (b : Bool)
  | none
  | list (items : List PyVal)
  | dict (fields : List (String × PyVal))

/-- Python `d.get(k, dflt)`.  Returns `Option.none` (an `AttributeError`)
when the receiver is not a dict. -/
def pyGet (v : PyVal) (k : String) (dflt : PyVal) : Option PyVal :=
  match v with
  | .dict fs => some ((fs.lookup k).getD dflt)
  | _ => Option.none

/-- Python `len(v)`: defined on strings, lists and dicts; a `TypeError`
(`Option.none`) on anything else. -/
def pyLen (v : PyVal) : Option Nat :=
  match v with
  | .str s => some s.length
  | .list l => some l.length
  | .dict fs => some fs.length
  | _ => Option.none

/-- ASCII lower-casing of one character (the roles compared in the source are
all ASCII). -/
def asciiLowerChar (c : Char) : Char :=
  if 65 ≤ c.toNat ∧ c.toNat ≤ 90 then Char.ofNat (c.toNat + 32) else c

/-- Python `s.lower()` restricted to ASCII, which covers every role string the
source compares against. -/
def asciiLower (s : String) : String :=
  ⟨s.data.map asciiLowerChar⟩

/-- Python `s.lower()` on a value: raises (`Option.none`) unless the value is a
string. -/
def pyLower (v : PyVal) : Option String :=
  match v with
  | .str s => some (asciiLower s)
  | _ => Option.none

/-- Routing of a token count by the (lower-cased) role, as in the v1 heuristic
(README lines 169-172): `user`/`system` count as input, `assistant`/`bot` as
output, anything else contributes nothing.  Result is `(input, output)`. -/
def routeTokens (role : String) (tokens : Nat) : Nat × Nat :=
  if role = "user" ∨ role = "system" then (tokens, 0)
  else if role = "assistant" ∨ role = "bot" then (0, tokens)
  else (0, 0)

/-- Token count of one content item in the legacy heuristic (README lines
163-167): items that are dicts carrying a `body` key contribute
`len(body) // 4`; any other item is skipped (contributes `0`). -/
def oldItemTokens (item : PyVal) : Option Nat :=
  match item with
  | .dict fs =>
    match fs.lookup "body" with
    | some b => (pyLen b).map (· / 4)
    | Option.none => some 0
  | _ => some 0

/-- The `for item in content` loop of the legacy heuristic (README lines
164-172), accumulating the routed token counts. -/
def old_content_fold (role : String) : List PyVal → Nat × Nat → Option (Nat × Nat)
  | [], acc => some acc
  | item :: rest, acc => do
    let t ← oldItemTokens item
    let (i, o) := routeTokens role t
    old_content_fold role rest (acc.1 + i, acc.2 + o)

/-- Contribution `(input, output)` of one message-map entry in the legacy
heuristic (README lines 158-172): `role = value.get('role', '').lower()`,
`content = value.get('content', [])`, then each dict item with a `body`
contributes `len(body) // 4` routed by the role; a non-list `content`
contributes nothing. -/
def extract_old_node (value : PyVal) : Option (Nat × Nat) := do
  let roleV ← pyGet value "role" (.str "")
  let role ← pyLower roleV
  let contentV ← pyGet value "content" (.list [])
  match contentV with
  | .list items => old_content_fold role items (0, 0)
  | _ => pure (0, 0)

/-- `extract_tokens_from_messagemap_OLD` (README lines 151-174): the legacy
heuristic, summing the per-entry contributions over the message map (given as
its list of key/value items). -/
def extract_tokens_from_messagemap_OLD (message_map : List (String × PyVal)) :
    Option (Nat × Nat) :=
  message_map.foldlM (fun acc kv => do
    let (i, o) ← extract_old_node kv.2
    pure (acc.1 + i, acc.2 + o)) (0, 0)

/-- `calculate_tokens` (README line 644: `LENGTH(text) / 4`): the fixed
character-count approximation used by both lambdas. -/
def calculate_tokens (text : String) : Nat := text.length / 4

/-- One hexadecimal digit, lower case (as Python's `\uXXXX` escapes print). -/
def hexDigit (n : Nat) : Char :=
  if n < 10 then Char.ofNat (48 + n) else Char.ofNat (87 + n)

/-- Escaping of one character inside a JSON string literal, as Python's
`json.dumps` emits it for ASCII input. -/
def jsonEscapeChar (c : Char) : String :=
  if c = '"' then "\\\""
  else if c = '\\' then "\\\\"
  else if c = '\n' then "\\n"
  else if c = '\r' then "\\r"
  else if c = '\t' then "\\t"
  else if c.toNat < 32 then
    "\\u00" ++ String.mk [hexDigit (c.toNat / 16), hexDigit (c.toNat % 16)]
  else String.mk [c]

/-- A JSON string literal: `"` + escaped characters + `"`. -/
def jsonDumpString (s : String) : String :=
  "\"" ++ String.join (s.data.map jsonEscapeChar) ++ "\""

mutual
/-- Python `json.dumps(v)` with its default separators `', '` and `': '`
(a space after each colon), as called by the toolUse branch of
`process_content_item` (README line 248). -/
def json_dumps : PyVal → String
  | .str s => jsonDumpString s
  | .int n => toString n
  | .bool b => if b then "true" else "false"
  | .none => "null"
  | .list items => "[" ++ json_dumps_list items ++ "]"
  | .dict fs => "\x7b" ++ json_dumps_fields fs ++ "\x7d"

/-- Elements of a JSON array, joined by `', '`. -/
def json_dumps_list : List PyVal → String
  | [] => ""
  | [v] => json_dumps v
  | v :: rest => json_dumps v ++ ", " ++ json_dumps_list rest

/-- Members of a JSON object, `key: value` pairs joined by `', '`. -/
def json_dumps_fields : List (String × PyVal) → String
  | [] => ""
  | [(k, v)] => jsonDumpString k ++ ": " ++ json_dumps v
  | (k, v) :: rest =>
    jsonDumpString k ++ ": " ++ json_dumps v ++ ", " ++ json_dumps_fields rest
end

/-- Escaping inside a single-quoted Python `repr` string. -/
def pyReprEscChar (c : Char) : String :=
  if c = '\\' then "\\\\" else if c = '\'' then "\\'" else String.mk [c]

mutual
/-- Python `repr(v)` for the value shapes of `PyVal` (strings shown
single-quoted; containers with `', '` / `': '` separators). -/
def pyRepr : PyVal → String
  | .str s => "'" ++ String.join (s.data.map pyReprEscChar) ++ "'"
  | .int n => toString n
  | .bool b => if b then "True" else "False"
  | .none => "None"
  | .list items => "[" ++ pyRepr_list items ++ "]"
  | .dict fs => "\x7b" ++ pyRepr_fields fs ++ "\x7d"

/-- Elements of a list `repr`, joined by `', '`. -/
def pyRepr_list : List PyVal → String
  | [] => ""
  | [v] => pyRepr v
  | v :: rest => pyRepr v ++ ", " ++ pyRepr_list rest

/-- Members of a dict `repr`, joined by `', '`. -/
def pyRepr_fields : List (String × PyVal) → String
  | [] => ""
  | [(k, v)] => pyRepr (.str k) ++ ": " ++ pyRepr v
  | (k, v) :: rest => pyRepr (.str k) ++ ": " ++ pyRepr v ++ ", " ++ pyRepr_fields rest
end

/-- Python `str(v)`, as applied to the elements of a toolResult `content` list
(README line 254): strings pass through unchanged, other values print as their
`repr`. -/
def pyStr (v : PyVal) : String :=
  match v with
  | .str s => s
  | v => pyRepr v

/-- Modelled from the spec: the v2 text branch's attribution is absent from the
README excerpt; spec section 4.1 says a `text` item is attributed "to input or
output by the entry's role as above", i.e. with the v1 role sets, and a
missing (`None`) or non-string role contributes zero (section 4.1's totality
contract). -/
def routeTokens_v2 (parent_role : PyVal) (tokens : Nat) : Nat × Nat :=
  match parent_role with
  | .str s => routeTokens (asciiLower s) tokens
  | _ => (0, 0)

/-- `process_content_item` (README lines 235-256): dispatch on
`item.get('content_type', 'text')`; `text` contributes `len(body) // 4` routed
by the parent role, `toolUse` contributes `len(json.dumps(body.input)) // 4`
as output only, `toolResult` contributes the sum of `len(str(r)) // 4` over
`body.content` as input only.  The default arm for a tag outside the three is
`Modelled from the spec:` the README excerpt ends without it and spec
section 9 fixes a zero contribution for unknown tags. -/
def process_content_item (item : PyVal) (parent_role : PyVal) : Option (Nat × Nat) := do
  let ct ← pyGet item "content_type" (.str "text")
  match ct with
  | .str t =>
    if t = "text" then do
      let bodyV ← pyGet item "body" (.str "")
      let n ← pyLen bodyV
      pure (routeTokens_v2 parent_role (n / 4))
    else if t = "toolUse" then do
      let bodyV ← pyGet item "body" (.dict [])
      let inputV ← pyGet bodyV "input" (.dict [])
      pure (0, calculate_tokens (json_dumps inputV))
    else if t = "toolResult" then do
      let bodyV ← pyGet item "body" (.dict [])
      let contentV ← pyGet bodyV "content" (.list [])
      match contentV with
      | .list rs =>
        pure (rs.foldl (fun acc r => acc + calculate_tokens (pyStr r)) 0, 0)
      | _ => Option.none
    else pure (0, 0)
  | _ => pure (0, 0)

mutual
/-- Modelled from the spec: `process_node_content` is called by
`extract_tokens_from_messagemap_v2` (README line 229) but its body is absent
from src; spec section 4.1 requires recursive processing of the content list
over arbitrary nesting depth, with each dict item dispatched through
`process_content_item` and malformed (non-dict, non-list) items degrading to a
zero contribution. -/
def process_node_content (content : PyVal) (parent_role : PyVal) : Option (Nat × Nat) :=
  match content with
  | .list items => process_items items parent_role
  | _ => some (0, 0)

/-- Accumulation over the items of a content list (see
`process_node_content`); nested lists are processed recursively. -/
def process_items : List PyVal → PyVal → Option (Nat × Nat)
  | [], _ => some (0, 0)
  | it :: rest, parent_role => do
    let head ←
      match it with
      | .dict fs => process_content_item (.dict fs) parent_role
      | .list l => process_items l parent_role
      | _ => some (0, 0)
    let tail ← process_items rest parent_role
    pure (head.1 + tail.1, head.2 + tail.2)
end

/-- `extract_tokens_from_messagemap_v2` (README lines 216-233): the enhanced
heuristic, summing `process_node_content(node.get('content', []),
node.get('role'))` over the message-map entries. -/
def extract_tokens_from_messagemap_v2 (message_map : List (String × PyVal)) :
    Option (Nat × Nat) :=
  message_map.foldlM (fun acc kv => do
    let roleV ← pyGet kv.2 "role" PyVal.none
    let contentV ← pyGet kv.2 "content" (.list [])
    let (i, o) ← process_node_content contentV roleV
    pure (acc.1 + i, acc.2 + o)) (0, 0)

/-- One row of the token-usage CSV (README lines 348-358): composite key
`(pk, sk)`, timestamp, token counts, derived prices, and the
`source` discriminator (`old_table` / `new_table`). -/
structure TokenRow where
  pk : String
  sk : String
  create_date : String
  input_token : Nat
  output_token : Nat
  precio_token_input : ℚ
  precio_token_output : ℚ
  total_price : ℚ
  source : String
deriving DecidableEq, Repr

/-- The composite key used for de-duplication (`subset=['pk', 'sk']`). -/
def rowKey (r : TokenRow) : String × String := (r.pk, r.sk)

/-- Pandas `df.drop_duplicates(subset=['pk', 'sk'], keep='first')`
(README lines 271 and 627): keep, in order, the first row carrying each
`(pk, sk)` key.  Structural formulation: every later row whose key already
occurred earlier is removed. -/
def drop_duplicates : List TokenRow → List TokenRow
  | [] => []
  | r :: rs => r :: (drop_duplicates rs).filter (fun r2 => rowKey r2 ≠ rowKey r)

/-- Descending order on `create_date` (`sort_values('create_date',
ascending=False)`, README line 272); dates are `YYYY-MM-DD HH:MM:SS` strings,
so lexicographic string order is chronological order. -/
def dateDesc (a b : TokenRow) : Prop := b.create_date ≤ a.create_date

instance : DecidableRel dateDesc :=
  fun a b => inferInstanceAs (Decidable (b.create_date ≤ a.create_date))

instance : IsTotal TokenRow dateDesc :=
  ⟨fun a b => (le_total b.create_date a.create_date).imp id id⟩

instance : IsTrans TokenRow dateDesc :=
  ⟨fun _ _ _ hab hbc => le_trans hbc hab⟩

/-- `consolidar_datos` (README lines 260-272, with `keep='first'` per line
627): concatenate historical-then-new, drop duplicate `(pk, sk)` keys keeping
the first occurrence, and sort by `create_date` descending (embedded with a
stable insertion sort, the deterministic reading the spec fixes for rows with
equal dates). -/
def consolidar_datos (datos_nuevos : List TokenRow) (df_historico : List TokenRow) :
    List TokenRow :=
  List.insertionSort dateDesc (drop_duplicates (df_historico ++ datos_nuevos))

/-- Modelled from the spec: the unit prices are fixed by README lines 644-646
(`$0.003` per 1K input tokens) but the price-computation code itself
(`tokens_lambda.py`) is not under src; spec section 4.2 fixes
`input_tokens/1000 * price_in`. -/
def precio_token_input (input_tokens : Nat) : ℚ :=
  (input_tokens : ℚ) / 1000 * (3 / 1000)

/-- Modelled from the spec: as `precio_token_input`, with the output price
`$0.015` per 1K tokens (README line 646). -/
def precio_token_output (output_tokens : Nat) : ℚ :=
  (output_tokens : ℚ) / 1000 * (15 / 1000)

/-- Modelled from the spec (section 4.2): `total_price = input_tokens/1000 *
price_in + output_tokens/1000 * price_out`. -/
def total_price (input_tokens output_tokens : Nat) : ℚ :=
  precio_token_input input_tokens + precio_token_output output_tokens

/-- Modelled from the spec: reading the archival CSV (`tokens_lambda.py` is
not under src); per spec sections 4.3 and 7, a missing archival object is a
recoverable condition: the historical half becomes the empty dataset and the
condition is logged (second component `true`). -/
def leer_historico (stored : Option (List TokenRow)) : List TokenRow × Bool :=
  match stored with
  | some rows => (rows, false)
  | Option.none => ([], true)

/-- Modelled from the spec: the daily consolidated job (spec section 4.3)
reads the archival object from storage (missing treated as empty), consolidates
it with the newly computed rows, and returns the consolidated output;
`Except.error` would model an unhandled exception aborting the run. -/
def daily_job (stored : Option (List TokenRow)) (datos_nuevos : List TokenRow) :
    Except String (List TokenRow) :=
  let (df_historico, _logged) := leer_historico stored
  Except.ok (consolidar_datos datos_nuevos df_historico)

/-- An S3 event as the EventBridge pattern of `OrchestratorConstruct` inspects
it: `source`, `detail-type`, `detail.bucket.name`, `detail.object.key`. -/
structure S3Event where
  source : String
  detailType : String
  bucketName : String
  objectKey : String

/-- The possible actions an EventBridge target of this rule performs. -/
inductive GlueAction where
  | startJobRun (jobName : String)
deriving DecidableEq, Repr

/-- EventBridge key-prefix matching: the pattern value `\x7b prefix: p \x7d`
matches an object key iff `p`'s characters are an initial segment of it. -/
def keyHasPfx (p k : String) : Bool := p.data.isPrefixOf k.data

/-- The event pattern of the rule `OnCsvArrived`
(lib/constructs/orchestrator-construct.ts lines 19-30), under EventBridge
matching semantics: every listed field must equal one of its allowed values,
and `\x7b prefix: p \x7d` matches object keys starting with `p`. -/
def ruleMatches (bucketName pfx : String) (e : S3Event) : Bool :=
  e.source = "aws.s3" && e.detailType = "Object Created" &&
    e.bucketName = bucketName && keyHasPfx pfx e.objectKey

/-- The targets attached to the rule: exactly one, `startJobRun` on the
configured Glue job name (orchestrator-construct.ts lines 47-55). -/
def ruleTargets (glueJobName : String) : List GlueAction :=
  [GlueAction.startJobRun glueJobName]

/-- The actions EventBridge performs for one delivered event: each target of
the rule fires once when the pattern matches, and nothing fires otherwise. -/
def triggeredActions (bucketName pfx glueJobName : String) (e : S3Event) :
    List GlueAction :=
  if ruleMatches bucketName pfx e then ruleTargets glueJobName else []

/-- A sample archival row (its values follow the README's historical CSV
example, lines 348-358); used to instantiate hypotheses concretely. -/
def oldRow : TokenRow :=
  ⟨"PK#123", "SK#456", "2025-01-08 14:30:45", 1234, 5678, 0, 0, 0, "old_table"⟩

/-- A newly computed row sharing `oldRow`'s composite key with a different
payload. -/
def newRowDup : TokenRow :=
  ⟨"PK#123", "SK#456", "2025-12-02 09:00:00", 40, 8, 0, 0, 1, "new_table"⟩

/-- A newly computed row with a fresh composite key. -/
def newRowFresh : TokenRow :=
  ⟨"PK#777", "SK#888", "2025-12-03 10:00:00", 8, 4, 0, 0, 2, "new_table"⟩

/-- Fields of a sample toolUse content item (spec section 8, scenario C). -/
def toolUseItemFields : List (String × PyVal) :=
  [("content_type", .str "toolUse"),
   ("body", .dict [("input", .dict [("a", .str "bcd")])])]

/-- Fields of a sample toolResult content item whose tool response is one
10-character string. -/
def toolResultItemFields : List (String × PyVal) :=
  [("content_type", .str "toolResult"),
   ("body", .dict [("content", .list [.str "0123456789"])])]

/-- A message map with a single entry that has no `role` field and whose
content is the sample toolUse item. -/
def missingRoleToolUseMap : List (String × PyVal) :=
  [("1", .dict [("content", .list [.dict toolUseItemFields])])]

/-! ## Lemmas about `drop_duplicates` and `consolidar_datos` -/

theorem drop_duplicates_subset {l : List TokenRow} {r : TokenRow}
    (hr : r ∈ drop_duplicates l) : r ∈ l := by
  induction l with
  | nil => simp [drop_duplicates] at hr
  | cons x rs ih =>
    simp only [drop_duplicates] at hr
    rcases List.mem_cons.mp hr with h | h
    · exact h ▸ List.mem_cons_self _ _
    · exact List.mem_cons_of_mem _ (ih (List.mem_of_mem_filter h))

theorem exists_key_drop_duplicates {l : List TokenRow} {k : String × String}
    (h : ∃ a ∈ l, rowKey a = k) : ∃ r ∈ drop_duplicates l, rowKey r = k := by
  induction l with
  | nil => simp at h
  | cons x rs ih =>
    by_cases hx : rowKey x = k
    · exact ⟨x, by simp [drop_duplicates], hx⟩
    · obtain ⟨a, ha, hak⟩ := h
      rcases List.mem_cons.mp ha with rfl | ha'
      · exact absurd hak hx
      · obtain ⟨r, hr, hrk⟩ := ih ⟨a, ha', hak⟩
        have hne : rowKey r ≠ rowKey x := by
          rw [hrk]; exact fun e => hx e.symm
        refine ⟨r, ?_, hrk⟩
        simp only [drop_duplicates, List.mem_cons]
        exact Or.inr (List.mem_filter.mpr ⟨hr, decide_eq_true hne⟩)

theorem drop_duplicates_pairwise (l : List TokenRow) :
    (drop_duplicates l).Pairwise (fun a b => rowKey a ≠ rowKey b) := by
  induction l with
  | nil => simp [drop_duplicates]
  | cons x rs ih =>
    simp only [drop_duplicates]
    refine List.Pairwise.cons ?_ (ih.filter _)
    intro b hb
    have hb2 := of_decide_eq_true (List.mem_filter.mp hb).2
    exact fun e => hb2 e.symm

theorem drop_duplicates_eq_self {l : List TokenRow}
    (h : l.Pairwise (fun a b => rowKey a ≠ rowKey b)) : drop_duplicates l = l := by
  induction l with
  | nil => simp [drop_duplicates]
  | cons x rs ih =>
    obtain ⟨h1, h2⟩ := List.pairwise_cons.mp h
    simp only [drop_duplicates, ih h2]
    congr 1
    exact List.filter_eq_self.mpr fun a ha => decide_eq_true fun e => h1 a ha e.symm

theorem drop_duplicates_append_mem_left (B : List TokenRow) (r : TokenRow) :
    ∀ A : List TokenRow, r ∈ drop_duplicates (A ++ B) →
      (∃ a ∈ A, rowKey a = rowKey r) → r ∈ A := by
  intro A
  induction A with
  | nil => intro _ ha; simp at ha
  | cons x A' ih =>
    intro hr ha
    rw [List.cons_append] at hr
    simp only [drop_duplicates] at hr
    rcases List.mem_cons.mp hr with rfl | hmem
    · exact List.mem_cons_self _ _
    · have hkr : rowKey r ≠ rowKey x := of_decide_eq_true (List.mem_filter.mp hmem).2
      have hr' : r ∈ drop_duplicates (A' ++ B) := (List.mem_filter.mp hmem).1
      obtain ⟨a, haA, hak⟩ := ha
      rcases List.mem_cons.mp haA with rfl | haA'
      · exact absurd hak.symm hkr
      · exact List.mem_cons_of_mem _ (ih hr' ⟨a, haA', hak⟩)

theorem mem_consolidar_datos {dn dh : List TokenRow} {r : TokenRow} :
    r ∈ consolidar_datos dn dh ↔ r ∈ drop_duplicates (dh ++ dn) :=
  (List.perm_insertionSort dateDesc _).mem_iff

theorem consolidar_datos_pairwise (dn dh : List TokenRow) :
    (consolidar_datos dn dh).Pairwise (fun a b => rowKey a ≠ rowKey b) :=
  ((List.perm_insertionSort dateDesc _).pairwise_iff fun h e => h e.symm).mpr
    (drop_duplicates_pairwise _)

/-- C1: consolidation concatenates the archival rows `A` and then the new rows
`B`, and de-duplicates by the composite key `(pk, sk)` keeping the first
occurrence in that order; hence when a row of `A` and a row of `B` share a
key, every row of the output carrying that key is the archival one (first
conjunct), such a row exists (second conjunct), and the new-table row itself
does not survive (third conjunct). -/
theorem consolidation_archival_wins (A B : List TokenRow) (ra rb : TokenRow)
    (hA : ∀ r ∈ A, r.source = "old_table")
    (hB : ∀ r ∈ B, r.source = "new_table")
    (ha : ra ∈ A) (hb : rb ∈ B) (hk : rowKey ra = rowKey rb) :
    (∀ r ∈ consolidar_datos B A, rowKey r = rowKey ra → r ∈ A) ∧
    (∃ r ∈ consolidar_datos B A, rowKey r = rowKey ra) ∧
    rb ∉ consolidar_datos B A := by
  have hfirst : ∀ r ∈ consolidar_datos B A, rowKey r = rowKey ra → r ∈ A := by
    intro r hr hrk
    exact drop_duplicates_append_mem_left B r A (mem_consolidar_datos.mp hr)
      ⟨ra, ha, hrk.symm⟩
  refine ⟨hfirst, ?_, ?_⟩
  · obtain ⟨r, hr, hrk⟩ :=
      exists_key_drop_duplicates ⟨ra, List.mem_append_left B ha, rfl⟩
    exact ⟨r, mem_consolidar_datos.mpr hr, hrk⟩
  · intro hmem
    have hrbA : rb ∈ A := hfirst rb hmem hk.symm
    exact absurd ((hA rb hrbA).symm.trans (hB rb hb)) (by decide)

theorem consolidation_archival_wins_witness :
    ((∀ r ∈ [oldRow], r.source = "old_table") ∧
      (∀ r ∈ [newRowDup], r.source = "new_table") ∧
      oldRow ∈ [oldRow] ∧ newRowDup ∈ [newRowDup] ∧
      rowKey oldRow = rowKey newRowDup) ∧
    ((∀ r ∈ consolidar_datos [newRowDup] [oldRow], rowKey r = rowKey oldRow →
        r ∈ [oldRow]) ∧
      (∃ r ∈ consolidar_datos [newRowDup] [oldRow], rowKey r = rowKey oldRow) ∧
      newRowDup ∉ consolidar_datos [newRowDup] [oldRow]) :=
  ⟨⟨by decide, by decide, by decide, by decide, by decide⟩,
    consolidation_archival_wins [oldRow] [newRowDup] oldRow newRowDup
      (by decide) (by decide) (by decide) (by decide) (by decide)⟩

/-- C2: for every pair of input row lists, the consolidated output contains at
most one row for each distinct `(pk, sk)` composite key (its rows have
pairwise distinct keys). -/
theorem consolidation_at_most_one_row_per_key
    (datos_nuevos df_historico : List TokenRow) :
    (consolidar_datos datos_nuevos df_historico).Pairwise
      (fun r1 r2 => rowKey r1 ≠ rowKey r2) :=
  consolidar_datos_pairwise datos_nuevos df_historico

/-- C3: consolidation is idempotent: once `A` and `B` are each already
de-duplicated by `(pk, sk)`, re-consolidating the consolidated output (with
nothing new) reproduces it exactly. -/
theorem consolidation_idempotent (A B : List TokenRow)
    (_hA : drop_duplicates A = A) (_hB : drop_duplicates B = B) :
    consolidar_datos [] (consolidar_datos B A) = consolidar_datos B A := by
  have hsorted : List.Sorted dateDesc (consolidar_datos B A) :=
    List.sorted_insertionSort dateDesc (drop_duplicates (A ++ B))
  show List.insertionSort dateDesc
      (drop_duplicates (consolidar_datos B A ++ [])) = consolidar_datos B A
  rw [List.append_nil, drop_duplicates_eq_self (consolidar_datos_pairwise B A),
    hsorted.insertionSort_eq]

theorem consolidation_idempotent_witness :
    (drop_duplicates [oldRow] = [oldRow] ∧
      drop_duplicates [newRowFresh] = [newRowFresh]) ∧
    consolidar_datos [] (consolidar_datos [newRowFresh] [oldRow]) =
      consolidar_datos [newRowFresh] [oldRow] :=
  ⟨⟨by decide, by decide⟩,
    consolidation_idempotent [oldRow] [newRowFresh] (by decide) (by decide)⟩

/-! ## Lemmas about the token heuristics -/

theorem routeTokens_zero (role : String) : routeTokens role 0 = (0, 0) := by
  unfold routeTokens
  split
  · rfl
  · split <;> rfl

theorem routeTokens_v2_zero (role : PyVal) : routeTokens_v2 role 0 = (0, 0) := by
  unfold routeTokens_v2
  split
  · exact routeTokens_zero _
  · rfl

theorem old_content_fold_const {role : String}
    (hr : ∀ t, routeTokens role t = (0, 0)) :
    ∀ (items : List PyVal) (acc p : Nat × Nat),
      old_content_fold role items acc = some p → p = acc := by
  intro items
  induction items with
  | nil =>
    intro acc p hp
    simp only [old_content_fold, Option.some.injEq] at hp
    exact hp.symm
  | cons item rest ih =>
    intro acc p hp
    simp only [old_content_fold] at hp
    cases hoi : oldItemTokens item with
    | none => rw [hoi] at hp; simp at hp
    | some t =>
      rw [hoi] at hp
      simp [hr t] at hp
      have := ih _ p hp
      simpa using this

/-- C4: in the enhanced heuristic, a `toolUse` item contributes
`len(json.dumps(body.input)) // 4` tokens to the output side and nothing to
the input side, and a `toolResult` item contributes the sum of
`len(str(r)) // 4` over its `body.content` elements to the input side and
nothing to the output side — for every parent role. -/
theorem toolUse_output_toolResult_input (fs : List (String × PyVal)) (role : PyVal) :
    (∀ bfs : List (String × PyVal),
      fs.lookup "content_type" = some (.str "toolUse") →
      (fs.lookup "body").getD (.dict []) = .dict bfs →
      process_content_item (.dict fs) role =
        some (0, calculate_tokens (json_dumps ((bfs.lookup "input").getD (.dict []))))) ∧
    (∀ (bfs : List (String × PyVal)) (rs : List PyVal),
      fs.lookup "content_type" = some (.str "toolResult") →
      (fs.lookup "body").getD (.dict []) = .dict bfs →
      (bfs.lookup "content").getD (.list []) = .list rs →
      process_content_item (.dict fs) role =
        some (rs.foldl (fun acc r => acc + calculate_tokens (pyStr r)) 0, 0)) := by
  constructor
  · intro bfs hct hbody
    simp [process_content_item, pyGet, hct, hbody]
  · intro bfs rs hct hbody hcontent
    simp [process_content_item, pyGet, hct, hbody, hcontent]

theorem toolUse_output_toolResult_input_witness :
    process_content_item (.dict toolUseItemFields) PyVal.none = some (0, 3) ∧
    process_content_item (.dict toolResultItemFields) PyVal.none = some (2, 0) :=
  ⟨by
    rw [(toolUse_output_toolResult_input toolUseItemFields PyVal.none).1
      [("input", PyVal.dict [("a", PyVal.str "bcd")])] rfl rfl]
    decide,
   by
    rw [(toolUse_output_toolResult_input toolResultItemFields PyVal.none).2
      [("content", PyVal.list [.str "0123456789"])] [.str "0123456789"] rfl rfl rfl]
    decide⟩

/-- C5 counterexample: the claim says a content item under an entry whose
`role` is missing contributes zero to both token counts, but a `toolUse` item
under a role-less entry still contributes its serialized-input tokens to
`output_tokens`: on `missingRoleToolUseMap` the enhanced heuristic completes
and returns `(0, 3)`, not a zero contribution. -/
theorem missing_role_toolUse_nonzero_cex :
    extract_tokens_from_messagemap_v2 missingRoleToolUseMap = some (0, 3) ∧
    extract_tokens_from_messagemap_v2 missingRoleToolUseMap ≠ some (0, 0) := by
  constructor <;> decide

/-- C5 (amended): both heuristics degrade malformed fields to a zero
contribution without raising: (1) a legacy item with no `body` contributes
zero; (2) a legacy entry with no `role` contributes zero whenever its scan
completes; (3) an enhanced-heuristic item with no `body` contributes zero
whatever its content type and role; (4) an enhanced-heuristic `text` item
(explicit or defaulted tag) with a string body under a missing role
contributes zero — `toolUse`/`toolResult` items are excepted, being
attributed by type regardless of role; (5) an explicitly tagged item with a
tag outside the three known ones contributes zero. -/
theorem malformed_fields_zero_contribution :
    (∀ fs : List (String × PyVal), fs.lookup "body" = Option.none →
      oldItemTokens (.dict fs) = some 0) ∧
    (∀ fs : List (String × PyVal), fs.lookup "role" = Option.none →
      ∀ p, extract_old_node (.dict fs) = some p → p = (0, 0)) ∧
    (∀ (fs : List (String × PyVal)) (role : PyVal), fs.lookup "body" = Option.none →
      process_content_item (.dict fs) role = some (0, 0)) ∧
    (∀ (fs : List (String × PyVal)) (s : String),
      (fs.lookup "content_type" = Option.none ∨
        fs.lookup "content_type" = some (.str "text")) →
      (fs.lookup "body").getD (.str "") = .str s →
      process_content_item (.dict fs) PyVal.none = some (0, 0)) ∧
    (∀ (fs : List (String × PyVal)) (role : PyVal) (t : String),
      fs.lookup "content_type" = some (.str t) →
      t ≠ "text" → t ≠ "toolUse" → t ≠ "toolResult" →
      process_content_item (.dict fs) role = some (0, 0)) := by
  refine ⟨?_, ?_, ?_, ?_, ?_⟩
  · intro fs h
    simp [oldItemTokens, h]
  · intro fs h p hp
    simp only [extract_old_node, pyGet, h, Option.getD_none] at hp
    cases hc : (fs.lookup "content").getD (.list []) with
    | list items =>
      rw [hc] at hp
      refine old_content_fold_const (fun t => ?_) items (0, 0) p hp
      have hl : asciiLower "" = "" := rfl
      rw [hl]
      simp [routeTokens]
    | str s => rw [hc] at hp; exact (Option.some.inj hp).symm
    | int n => rw [hc] at hp; exact (Option.some.inj hp).symm
    | bool b => rw [hc] at hp; exact (Option.some.inj hp).symm
    | none => rw [hc] at hp; exact (Option.some.inj hp).symm
    | dict gs => rw [hc] at hp; exact (Option.some.inj hp).symm
  · intro fs role h
    simp only [process_content_item, pyGet]
    cases hct : (fs.lookup "content_type").getD (.str "text") with
    | str t =>
      by_cases h1 : t = "text"
      · subst h1
        simp [pyGet, h, pyLen, routeTokens_v2_zero]
      · by_cases h2 : t = "toolUse"
        · subst h2
          simp [h1, pyGet, h, calculate_tokens]
          decide
        · by_cases h3 : t = "toolResult"
          · subst h3
            simp [h1, h2, pyGet, h]
          · simp [h1, h2, h3]
    | int n => rfl
    | bool b => rfl
    | none => rfl
    | list items => rfl
    | dict gs => rfl
  · intro fs s hct hbody
    rcases hct with hct | hct <;>
      simp [process_content_item, pyGet, hct, hbody, pyLen, routeTokens_v2]
  · intro fs role t hct h1 h2 h3
    simp [process_content_item, pyGet, hct, h1, h2, h3]

theorem malformed_fields_zero_contribution_witness :
    oldItemTokens (.dict [("type", PyVal.str "t")]) = some 0 ∧
    ((0, 0) : Nat × Nat) = (0, 0) ∧
    process_content_item (.dict [("content_type", PyVal.str "toolUse")])
      (.str "user") = some (0, 0) ∧
    process_content_item (.dict [("body", PyVal.str "abcd")]) PyVal.none =
      some (0, 0) ∧
    process_content_item (.dict [("content_type", PyVal.str "image")])
      (.str "user") = some (0, 0) :=
  ⟨malformed_fields_zero_contribution.1 _ rfl,
   malformed_fields_zero_contribution.2.1
     [("content", PyVal.list [.dict [("body", PyVal.str "abcdefgh")]])] rfl
     (0, 0) (by decide),
   malformed_fields_zero_contribution.2.2.1 _ _ rfl,
   malformed_fields_zero_contribution.2.2.2.1 _ "abcd" (Or.inl rfl) rfl,
   malformed_fields_zero_contribution.2.2.2.2 _ (.str "user") "image" rfl
     (by decide) (by decide) (by decide)⟩

/-- C6 counterexample: `json.dumps` of the nested input object
`\x7b"a": "bcd"\x7d` is 12 characters (Python's default separators put a space
after the colon), not the 15 characters the claim states. -/
theorem toolUse_serialization_length_cex :
    (json_dumps (.dict [("a", PyVal.str "bcd")])).length = 12 ∧
    (json_dumps (.dict [("a", PyVal.str "bcd")])).length ≠ 15 := by
  constructor <;> decide

/-- C6 (amended): the sample toolUse item serializes its nested input object
to the 12-character string `\x7b"a": "bcd"\x7d` and yields
`token_count = 12 // 4 = 3`, attributed entirely to `output_tokens` with a
zero input-side contribution, for every parent role. -/
theorem toolUse_scenario_c :
    json_dumps (.dict [("a", PyVal.str "bcd")]) = "\x7b\"a\": \"bcd\"\x7d" ∧
    (json_dumps (.dict [("a", PyVal.str "bcd")])).length = 12 ∧
    (∀ role, process_content_item (.dict toolUseItemFields) role = some (0, 3)) := by
  refine ⟨by decide, by decide, fun role => rfl⟩

/-- C7: the price computation charges `$0.003` per 1K input tokens and
`$0.015` per 1K output tokens; `1000000 × price` is always the integer
`3·input + 15·output` (so the result has exactly 6 fractional decimal
digits), and the documented example (1234, 5678) gives 0.003702, 0.085170
and 0.088872. -/
theorem price_computation_six_decimals :
    (∀ i o : Nat, total_price i o = ((i * 3 + o * 15 : Nat) : ℚ) / 1000000) ∧
    (∀ i o : Nat, total_price i o * 1000000 = ((i * 3 + o * 15 : Nat) : ℚ)) ∧
    precio_token_input 1234 = 3702 / 1000000 ∧
    precio_token_output 5678 = 85170 / 1000000 ∧
    total_price 1234 5678 = 88872 / 1000000 := by
  have key : ∀ i o : Nat, total_price i o = ((i * 3 + o * 15 : Nat) : ℚ) / 1000000 := by
    intro i o
    unfold total_price precio_token_input precio_token_output
    push_cast
    ring
  refine ⟨key, fun i o => ?_, ?_, ?_, ?_⟩
  · rw [key i o]
    norm_num
  · norm_num [precio_token_input]
  · norm_num [precio_token_output]
  · norm_num [total_price, precio_token_input, precio_token_output]

/-- C8: when the archival object is absent from storage the daily job treats
the historical half as an empty dataset, logs the condition, and still returns
a valid consolidated output; for every store state the job returns `ok`
(never an unhandled file-not-found error). -/
theorem missing_historical_recoverable :
    (∀ datos_nuevos : List TokenRow,
      daily_job Option.none datos_nuevos =
        Except.ok (consolidar_datos datos_nuevos [])) ∧
    (leer_historico Option.none).2 = true ∧
    (∀ (stored : Option (List TokenRow)) (datos_nuevos : List TokenRow),
      ∃ out, daily_job stored datos_nuevos = Except.ok out) :=
  ⟨fun _ => rfl, rfl, fun _ _ => ⟨_, rfl⟩⟩

/-- C9: for an `Object Created` event from S3, the `OnCsvArrived` rule matches
iff the event's bucket equals the configured data bucket and its key begins
with the configured extract-stage prefix; a matching event starts the
configured Glue job exactly once, and an object under any other prefix starts
nothing. -/
theorem trigger_rule_matches_iff (bucket pfx job : String) (e : S3Event)
    (hsrc : e.source = "aws.s3") (hdt : e.detailType = "Object Created") :
    (ruleMatches bucket pfx e = true ↔
      (e.bucketName = bucket ∧ pfx.data <+: e.objectKey.data)) ∧
    (e.bucketName = bucket → pfx.data <+: e.objectKey.data →
      triggeredActions bucket pfx job e = [GlueAction.startJobRun job]) ∧
    (¬ pfx.data <+: e.objectKey.data → triggeredActions bucket pfx job e = []) := by
  have hiff : ruleMatches bucket pfx e = true ↔
      (e.bucketName = bucket ∧ pfx.data <+: e.objectKey.data) := by
    simp [ruleMatches, keyHasPfx, hsrc, hdt, List.isPrefixOf_iff_prefix]
  refine ⟨hiff, ?_, ?_⟩
  · intro hb hk
    rw [triggeredActions, if_pos (hiff.mpr ⟨hb, hk⟩)]
    rfl
  · intro hk
    rw [triggeredActions, if_neg]
    intro hm
    exact hk (hiff.mp hm).2

theorem trigger_rule_matches_iff_witness :
    triggeredActions "cat-test-normalize-reports" "reports/etl-process1/" "etl2-job"
      ⟨"aws.s3", "Object Created", "cat-test-normalize-reports",
        "reports/etl-process1/normalized_data.csv"⟩ =
      [GlueAction.startJobRun "etl2-job"] ∧
    triggeredActions "cat-test-normalize-reports" "reports/etl-process1/" "etl2-job"
      ⟨"aws.s3", "Object Created", "cat-test-normalize-reports",
        "athena/results/normalized_data.csv"⟩ = [] :=
  ⟨(trigger_rule_matches_iff _ _ _ _ rfl rfl).2.1 rfl (by decide),
   (trigger_rule_matches_iff _ _ _ _ rfl rfl).2.2 (by decide)⟩

/-- C10: an enhanced-heuristic content item with no `content_type` field is
dispatched as `text` — it is counted, its (string) body contributing
`length/4` tokens attributed by the parent entry's role — and tagging it
explicitly with `text` changes nothing. -/
theorem content_type_defaults_to_text (fs : List (String × PyVal)) (role : PyVal)
    (s : String)
    (hct : fs.lookup "content_type" = Option.none)
    (hbody : (fs.lookup "body").getD (.str "") = .str s) :
    process_content_item (.dict fs) role =
      some (routeTokens_v2 role (calculate_tokens s)) ∧
    process_content_item (.dict (("content_type", PyVal.str "text") :: fs)) role =
      process_content_item (.dict fs) role := by
  constructor
  · simp [process_content_item, pyGet, hct, hbody, pyLen, calculate_tokens]
  · simp [process_content_item, pyGet, hct, List.lookup]

theorem content_type_defaults_to_text_witness :
    (process_content_item (.dict [("body", PyVal.str "abcdefgh")]) (.str "user") =
        some (routeTokens_v2 (.str "user") (calculate_tokens "abcdefgh")) ∧
      process_content_item
          (.dict [("content_type", PyVal.str "text"), ("body", PyVal.str "abcdefgh")])
          (.str "user") =
        process_content_item (.dict [("body", PyVal.str "abcdefgh")]) (.str "user")) ∧
    process_content_item (.dict [("body", PyVal.str "abcdefgh")]) (.str "user") =
      some (2, 0) :=
  ⟨content_type_defaults_to_text [("body", PyVal.str "abcdefgh")] (.str "user")
      "abcdefgh" rfl rfl,
    by decide⟩
